import Mathlib

/-!
Shallow embedding of the httpie-style CLI client (src/httpie/src/main.rs):
key=value argument parsing (`KvPair::from_str`), URL validation
(`parse_url`, which delegates to the url crate), the response formatter
(`print_status`, `print_headers`, `print_body`, `print_resp`), and the
request side of `get` / `post`.  Machine-level details (ANSI escape bytes,
the exact panic messages, async scheduling) are abstracted into small
inductive output and error types; everything else follows the source
line by line.
-/

/-- Result of splitting a character list at every occurrence of `c`.
Models Rust `str::split(c)` collected into a list: the result is never
empty, and has `count c + 1` elements. -/
def splitChar (c : Char) : List Char → List (List Char)
  | [] => [[]]
  | x :: xs =>
    if x = c then [] :: splitChar c xs
    else
      match splitChar c xs with
      | [] => [[x]]
      | y :: ys => (x :: y) :: ys

/-- Key/value pair for the POST body, as in the `KvPair` struct. -/
structure KvPair where
  k : String
  v : String
deriving Repr, DecidableEq

/-- Embeds `impl FromStr for KvPair`: split the token on every `=`, take
the first element of the iterator as the key and the second as the value;
if the second element does not exist the anyhow error
`Failed to parse {s}` is produced.  (The first element of a Rust char
split always exists, as it does for `splitChar`.) -/
def KvPair.fromStr (s : String) : Except String KvPair :=
  match splitChar '=' s.data with
  | k :: v :: _ => .ok ⟨String.mk k, String.mk v⟩
  | _ => .error ("Failed to parse " ++ s)

/-- Embeds `parse_kv_pair`, which just defers to `FromStr`. -/
def parse_kv_pair (s : String) : Except String KvPair :=
  KvPair.fromStr s

/-- Clap applies `parse_kv_pair` to every positional body token; one
failure aborts argument parsing. -/
def parseBodyTokens (tokens : List String) : Except String (List KvPair) :=
  tokens.mapM parse_kv_pair

/-!
URL validation.  `parse_url` in the source checks the string with
`s.parse::<Url>()` (the url crate, a WHATWG URL parser) and returns the
original string.  The fragment of `Url::parse` relevant here is modelled:
input trimming, scheme parsing, the authority/host requirement of the
special schemes, and opaque paths for all other schemes.  IDNA, percent
encoding, IPv6 host literals and path/query validation are not modelled;
none of the claims below depends on them.
-/

/-- Errors of the modelled URL parser (names follow `url::ParseError`). -/
inductive UrlParseError
  | relativeUrlWithoutBase
  | emptyHost
  | invalidPort
  | invalidHostChar
deriving Repr, DecidableEq

/-- WHATWG preprocessing: strip leading and trailing C0 controls and
spaces, then remove all tabs and newlines. -/
def stripControlAndSpace (s : List Char) : List Char :=
  let trimmed :=
    ((s.dropWhile (fun c => c.toNat ≤ 32)).reverse.dropWhile (fun c => c.toNat ≤ 32)).reverse
  trimmed.filter (fun c => !(c = '\t' || c = '\n' || c = '\r'))

/-- Characters allowed in a scheme after its first letter. -/
def isSchemeRestChar (c : Char) : Bool :=
  c.isAlphanum || c = '+' || c = '-' || c = '.'

/-- Helper scanning the tail of a scheme up to the mandatory colon. -/
def splitScheme (acc : List Char) : List Char → Option (List Char × List Char)
  | [] => none
  | c :: cs =>
    if c = ':' then some (acc.reverse, cs)
    else if isSchemeRestChar c then splitScheme (c :: acc) cs
    else none

/-- Parses the scheme of a URL: an ASCII letter, then letters, digits,
`+`, `-` or `.`, terminated by `:`.  Returns the lowercased scheme and
the remainder after the colon. -/
def parseScheme (s : List Char) : Option (String × List Char) :=
  match s with
  | [] => none
  | c :: cs =>
    if c.isAlpha then
      match splitScheme [c] cs with
      | some (sch, rest) => some (String.mk (sch.map Char.toLower), rest)
      | none => none
    else none

/-- Special schemes of the WHATWG URL standard. -/
def specialSchemes : List String := ["http", "https", "ws", "wss", "ftp", "file"]

/-- Characters that terminate the authority section. -/
def isAuthorityEnd (c : Char) : Bool :=
  c = '/' || c = '?' || c = '#' || c = '\\'

/-- Host characters the parser rejects (forbidden host code points,
minus those that already terminate the authority or split the port). -/
def isForbiddenHostChar (c : Char) : Bool :=
  c = ' ' || c = '#' || c = '/' || c = ':' || c = '<' || c = '>' ||
  c = '?' || c = '@' || c = '[' || c = ']' || c = '^' || c = '|' || c = '\\'

/-- Drops everything up to and including the last `@` (userinfo). -/
def afterLastAt (l : List Char) : List Char :=
  ((l.reverse).takeWhile (fun c => !(c = '@'))).reverse

/-- Splits at the first colon: host part and optional port digits. -/
def splitFirstColon : List Char → List Char × Option (List Char)
  | [] => ([], none)
  | c :: cs =>
    if c = ':' then ([], some cs)
    else
      let r := splitFirstColon cs
      (c :: r.1, r.2)

/-- Numeric value of a digit string. -/
def digitsVal (l : List Char) : Nat :=
  l.foldl (fun a c => a * 10 + (c.toNat - 48)) 0

/-- Outcome of URL parsing, reduced to the fields the claims mention. -/
structure ParsedUrl where
  scheme : String
  host : Option String
deriving Repr, DecidableEq

/-- Parses the authority section into a host, validating host characters
and the optional port.  `allowEmpty` is true for `file` and for
non-special schemes, where an empty host is legal. -/
def parseAuthority (allowEmpty : Bool) (authority : List Char) :
    Except UrlParseError (Option String) :=
  let hostPort := afterLastAt authority
  let hp := splitFirstColon hostPort
  if hp.1 = [] then
    if allowEmpty then .ok (some "") else .error .emptyHost
  else if hp.1.any isForbiddenHostChar then .error .invalidHostChar
  else
    let host := some (String.mk (hp.1.map Char.toLower))
    match hp.2 with
    | none => .ok host
    | some ds =>
      if ds = [] then .ok host
      else if ds.all Char.isDigit && digitsVal ds < 65536 then .ok host
      else .error .invalidPort

/-- Models `url::Url::parse` on the fragment described above.  A string
with no scheme is a relative URL without a base and is rejected; special
schemes require an authority with a host; every other scheme takes an
opaque path (no host required), unless it is followed by `//`. -/
def urlParse (s : String) : Except UrlParseError ParsedUrl :=
  let input := stripControlAndSpace s.data
  match parseScheme input with
  | none => .error .relativeUrlWithoutBase
  | some (scheme, rest) =>
    if specialSchemes.contains scheme then
      let rest2 := rest.dropWhile (fun c => c = '/' || c = '\\')
      let authority := rest2.takeWhile (fun c => !(isAuthorityEnd c))
      match parseAuthority (scheme == "file") authority with
      | .ok h => .ok { scheme := scheme, host := h }
      | .error e => .error e
    else
      match rest with
      | '/' :: '/' :: r =>
        let authority := r.takeWhile (fun c => !(isAuthorityEnd c))
        match parseAuthority true authority with
        | .ok h => .ok { scheme := scheme, host := h }
        | .error e => .error e
      | _ => .ok { scheme := scheme, host := none }

/-- Embeds `parse_url`: validate with `Url::parse`, discard the parsed
value, and return the original string unchanged. -/
def parse_url (s : String) : Except UrlParseError String :=
  match urlParse s with
  | .ok _ => .ok s
  | .error e => .error e

/-!
MIME types.  `get_content_type` parses the Content-Type header with the
mime crate (`v.to_str().unwrap().parse::<Mime>().unwrap()`), and
`print_body` compares the result against `mime::APPLICATION_JSON` and
`mime::TEXT_HTML`.  The crate is modelled structurally: a mime value is
`type/subtype` plus parameters, the type, subtype and parameter names
are stored lowercased (the crate compares them ASCII-case-insensitively),
and parsing demands token characters.  Quoted parameter values and the
special casing of `charset=utf-8` are outside the modelled fragment; no
claim below depends on them.
-/

/-- Punctuation allowed in an HTTP token (RFC 7230), with the apostrophe
and the backtick written by code point. -/
def mimePunct : List Char :=
  ['!', '#', '$', '%', '&', '*', '+', '-', '.', '^', '_', '|', '~',
   Char.ofNat 39, Char.ofNat 96]

/-- Token characters: alphanumerics plus the RFC 7230 punctuation. -/
def isTokenChar (c : Char) : Bool :=
  c.isAlphanum || mimePunct.contains c

/-- Structural model of `mime::Mime`. -/
structure Mime where
  mainType : String
  subType : String
  params : List (String × String)
deriving Repr, DecidableEq

/-- The constant `mime::APPLICATION_JSON`. -/
def APPLICATION_JSON : Mime := ⟨"application", "json", []⟩

/-- The constant `mime::TEXT_HTML`. -/
def TEXT_HTML : Mime := ⟨"text", "html", []⟩

/-- Trims spaces on both ends of a parameter segment. -/
def trimSpaces (l : List Char) : List Char :=
  ((l.dropWhile (fun c => c = ' ')).reverse.dropWhile (fun c => c = ' ')).reverse

/-- Splits at the first `=` inside a parameter segment. -/
def splitFirstEq : List Char → List Char × Option (List Char)
  | [] => ([], none)
  | c :: cs =>
    if c = '=' then ([], some cs)
    else
      let r := splitFirstEq cs
      (c :: r.1, r.2)

/-- Parses the `; key=value` parameter segments of a mime string. -/
def parseMimeParams : List (List Char) → Option (List (String × String))
  | [] => some []
  | seg :: rest =>
    let seg2 := trimSpaces seg
    match splitFirstEq seg2 with
    | (_, none) => none
    | (k, some v) =>
      if !(k = []) && k.all isTokenChar && !(v = []) && v.all isTokenChar then
        match parseMimeParams rest with
        | some ps => some ((String.mk (k.map Char.toLower), String.mk v) :: ps)
        | none => none
      else none

/-- Models `Mime::from_str`: `type/subtype` of token characters, then
optional `; key=value` parameters. -/
def parseMime (s : String) : Option Mime :=
  match splitChar ';' s.data with
  | [] => none
  | essence :: paramSegs =>
    match splitChar '/' essence with
    | [t, sub] =>
      if !(t = []) && t.all isTokenChar && !(sub = []) && sub.all isTokenChar then
        match parseMimeParams paramSegs with
        | some ps =>
          some ⟨String.mk (t.map Char.toLower), String.mk (sub.map Char.toLower), ps⟩
        | none => none
      else none
    | _ => none

/-!
Response formatting.  Console output is modelled as a list of rendered
items; the colors of the colored crate become an inductive type
(`red` is the warning color of `print_status`, `green` the success
color, `cyan` the plain accent color of `print_body`).  `print_syntect`
loads the default syntect syntax set, which contains syntaxes for the
`json` and `html` extensions, so its `unwrap` cannot fail for the two
extensions used; it is modelled as a highlighted output item.
-/

/-- Terminal colors used by the program. -/
inductive Color
  | red
  | green
  | cyan
deriving Repr, DecidableEq

/-- One rendered piece of console output. -/
inductive Out
  | colored (c : Color) (text : String)
  | header (name : String) (value : String)
  | blank
  | highlighted (ext : String) (body : String)
deriving Repr, DecidableEq

/-- Runtime failures: a transport error propagated with `?`, or a panic
from an `unwrap`.  Both terminate the process with a non-zero status. -/
inductive RunError
  | transport (msg : String)
  | panic
deriving Repr, DecidableEq

/-- Header values are byte strings (`http::HeaderValue`). -/
def HeaderValue := List Nat
deriving instance DecidableEq, Repr for HeaderValue

/-- Builds a header value from a string, one byte per ASCII character. -/
def strBytes (s : String) : HeaderValue :=
  s.data.map Char.toNat

/-- Models `HeaderValue::to_str`: succeeds when every byte is visible
ASCII (or tab), fails otherwise. -/
def headerToStr (v : HeaderValue) : Option String :=
  if v.all (fun b => b = 9 || (32 ≤ b && b < 127)) then
    some (String.mk (v.map Char.ofNat))
  else none

/-- Models the response as the program reads it: status code, the
Display rendering of the status (`resp.status().to_string()`), the Debug
rendering of the version (`{:?}` on `resp.version()`), the header map
(names lowercased, as reqwest stores them) and the body text.  The
fallible body decoding of `resp.text()` is not modelled; the body is
taken as already decoded text. -/
structure Response where
  status : Nat
  statusStr : String
  version : String
  headers : List (String × HeaderValue)
  body : String

/-- Models `HeaderMap::get` for a lowercase header name. -/
def headerLookup (headers : List (String × HeaderValue)) (name : String) :
    Option HeaderValue :=
  (headers.find? (fun p => p.1 == name)).map (fun p => p.2)

/-- Models `StatusCode::is_client_error`. -/
def is_client_error (st : Nat) : Bool := 400 ≤ st && st ≤ 499

/-- Models `StatusCode::is_server_error`. -/
def is_server_error (st : Nat) : Bool := 500 ≤ st && st ≤ 599

/-- Embeds `print_status`: 4xx and 5xx print the status in red; any
other status prints `{version:?} {status}` in green followed by a blank
line (the `\n` inside the println format string). -/
def print_status (resp : Response) : List Out :=
  if is_client_error resp.status then [Out.colored Color.red resp.statusStr]
  else if is_server_error resp.status then [Out.colored Color.red resp.statusStr]
  else [Out.colored Color.green (resp.version ++ " " ++ resp.statusStr), Out.blank]

/-- Embeds `print_headers`: each header is printed as `name: value` with
the value decoded by `to_str().unwrap()` - `none` is the panic of that
unwrap - followed by a blank line. -/
def print_headers (headers : List (String × HeaderValue)) : Option (List Out) :=
  match headers.mapM (fun p => (headerToStr p.2).map (fun v => Out.header p.1 v)) with
  | some outs => some (outs ++ [Out.blank])
  | none => none

/-- Embeds `get_content_type`: an absent header yields `None` without
error; a present header is decoded with `to_str().unwrap()` and parsed
with `parse().unwrap()`, and the outer `none` is the panic of either
unwrap. -/
def get_content_type (hv : Option HeaderValue) : Option (Option Mime) :=
  match hv with
  | none => some none
  | some v =>
    match headerToStr v with
    | none => none
    | some s =>
      match parseMime s with
      | none => none
      | some m => some (some m)

/-- Composite of the two unwraps on a present Content-Type value. -/
def decodeMime (v : HeaderValue) : Option Mime :=
  match headerToStr v with
  | none => none
  | some s => parseMime s

/-- Embeds `print_body`: JSON highlighting when the mime value equals
`APPLICATION_JSON`, HTML highlighting when it equals `TEXT_HTML`, and
otherwise - any other mime value or an absent header - the body printed
in cyan. -/
def print_body (m : Option Mime) (body : String) : List Out :=
  match m with
  | some v =>
    if v = APPLICATION_JSON then [Out.highlighted "json" body]
    else if v = TEXT_HTML then [Out.highlighted "html" body]
    else [Out.colored Color.cyan body]
  | none => [Out.colored Color.cyan body]

/-- Embeds `print_resp`: status line, headers, Content-Type lookup, then
the body.  A panic in `print_headers` or `get_content_type` aborts the
run with `RunError.panic`. -/
def print_resp (resp : Response) : Except RunError (List Out) :=
  match print_headers resp.headers with
  | none => .error RunError.panic
  | some hs =>
    match get_content_type (headerLookup resp.headers "content-type") with
    | none => .error RunError.panic
    | some m => .ok (print_status resp ++ hs ++ print_body m resp.body)

/-!
Request side.  `post` collects the parsed pairs into a
`HashMap<&String, &String>` - insertion replaces the value of an
existing key - and sends it with `.json(&body)`, which serializes the
map as a JSON object and sets `Content-Type: application/json`
(reqwest contract for `RequestBuilder::json`).  The hash map is
modelled as an association list with unique keys; its iteration order
is unspecified in Rust, and insertion order serves as the canonical
serialization order of the model.
-/

/-- JSON values, restricted to what the program can produce. -/
inductive JsonVal
  | str (s : String)
  | obj (fields : List (String × JsonVal))

/-- Association-list lookup (first match). -/
def alookup {α : Type} : List (String × α) → String → Option α
  | [], _ => none
  | p :: ps, k => if p.1 = k then some p.2 else alookup ps k

/-- Models `HashMap::insert`: replace the value of an existing key,
otherwise add the new entry. -/
def insertKV : List (String × String) → String → String → List (String × String)
  | [], k, v => [(k, v)]
  | p :: ps, k, v => if p.1 = k then (k, v) :: ps else p :: insertKV ps k v

/-- Models the insertion loop of `post`: fold the parsed pairs into the
hash map, in argument order. -/
def buildBody (pairs : List KvPair) : List (String × String) :=
  pairs.foldl (fun m p => insertKV m p.k p.v) []

/-- Value of the last pair with the given key, in argument order. -/
def lastValueAux (pairs : List KvPair) (key : String) (init : Option String) :
    Option String :=
  pairs.foldl (fun acc p => if p.k = key then some p.v else acc) init

/-- Value of the last pair with the given key, if any. -/
def lastValue (pairs : List KvPair) (key : String) : Option String :=
  lastValueAux pairs key none

/-- The serialized body map: every value is a JSON string (serde
serializes `&String` as a string, with no numeric coercion). -/
def postBodyJson (pairs : List KvPair) : JsonVal :=
  .obj ((buildBody pairs).map (fun p => (p.1, JsonVal.str p.2)))

/-- Fields of a JSON object. -/
def jfields : JsonVal → List (String × JsonVal)
  | .obj fs => fs
  | .str _ => []

/-- Outbound POST request as assembled by `post` via
`client.post(&args.url).json(&body)`. -/
structure OutboundRequest where
  url : String
  contentTypeHeader : String
  body : JsonVal

/-- Embeds the request-building half of `post`. -/
def postRequest (url : String) (pairs : List KvPair) : OutboundRequest :=
  { url := url,
    contentTypeHeader := "application/json",
    body := postBodyJson pairs }

/-!
Dispatch.  `get` and `post` send the request and immediately apply `?`
to the result: a transport error propagates to `main` before
`print_resp` runs, so no formatting output exists on that path, and
`main` returning an error makes the process exit non-zero (anyhow /
Rust runtime contract, exit code 1).
-/

/-- Embeds the response half of `get`: the outcome of `send().await`
either propagates as a transport error or is formatted. -/
def getRun (sendResult : Except String Response) : Except RunError (List Out) :=
  match sendResult with
  | .error m => .error (RunError.transport m)
  | .ok resp => print_resp resp

/-- Embeds the response half of `post`; identical to `get` after the
request is sent. -/
def postRun (sendResult : Except String Response) : Except RunError (List Out) :=
  match sendResult with
  | .error m => .error (RunError.transport m)
  | .ok resp => print_resp resp

/-- Process exit status of `main`: 0 on success, 1 when the error is
propagated out of `main`. -/
def exitCode (r : Except RunError (List Out)) : Nat :=
  match r with
  | .ok _ => 0
  | .error _ => 1

/-!
Helper lemmas.
-/

theorem splitChar_ne_nil (c : Char) (l : List Char) : splitChar c l ≠ [] := by
  induction l with
  | nil => simp [splitChar]
  | cons x xs ih =>
    simp only [splitChar]
    split
    · simp
    · split
      · simp
      · simp

theorem splitChar_eq_single (c : Char) (l : List Char) (h : c ∉ l) :
    splitChar c l = [l] := by
  induction l with
  | nil => rfl
  | cons x xs ih =>
    have hx : x ≠ c := fun hxc => h (hxc ▸ List.mem_cons_self x xs)
    have hxs : c ∉ xs := fun hm => h (List.mem_cons_of_mem x hm)
    simp only [splitChar, if_neg hx, ih hxs]

theorem splitChar_mem (c : Char) (l : List Char) (h : c ∈ l) :
    ∃ a b t, splitChar c l = a :: b :: t := by
  induction l with
  | nil => exact absurd h (List.not_mem_nil c)
  | cons x xs ih =>
    by_cases hx : x = c
    · subst hx
      simp only [splitChar, if_pos rfl]
      obtain ⟨y, ys, hys⟩ := List.exists_cons_of_ne_nil (splitChar_ne_nil x xs)
      exact ⟨[], y, ys, by rw [hys]; simp⟩
    · have hm : c ∈ xs := by
        rcases List.mem_cons.mp h with h1 | h2
        · exact absurd h1.symm hx
        · exact h2
      obtain ⟨a, b, t, ht⟩ := ih hm
      exact ⟨x :: a, b, t, by simp only [splitChar, if_neg hx, ht]⟩

theorem alookup_insertKV (m : List (String × String)) (k v k' : String) :
    alookup (insertKV m k v) k' = if k = k' then some v else alookup m k' := by
  induction m with
  | nil => simp [insertKV, alookup]
  | cons p ps ih =>
    by_cases hp : p.1 = k
    · by_cases hk : k = k'
      · subst hk
        simp [insertKV, alookup, hp]
      · have hp' : ¬(p.1 = k') := fun h => hk (hp ▸ h)
        simp [insertKV, alookup, hp, hk, hp']
    · by_cases hk : k = k'
      · subst hk
        simp [insertKV, alookup, hp, ih]
      · simp [insertKV, alookup, hp, hk, ih]

theorem alookup_foldl_insert (pairs : List KvPair) (m : List (String × String))
    (k : String) :
    alookup (pairs.foldl (fun m p => insertKV m p.k p.v) m) k =
      lastValueAux pairs k (alookup m k) := by
  induction pairs generalizing m with
  | nil => simp [lastValueAux]
  | cons p ps ih =>
    simp only [List.foldl_cons, lastValueAux] at *
    rw [ih (insertKV m p.k p.v), alookup_insertKV]

theorem alookup_map_str (m : List (String × String)) (k : String) :
    alookup (m.map (fun p => (p.1, JsonVal.str p.2))) k =
      (alookup m k).map JsonVal.str := by
  induction m with
  | nil => rfl
  | cons p ps ih =>
    by_cases hp : p.1 = k
    · simp [alookup, hp]
    · simp [alookup, hp, ih]

theorem get_content_type_decode_none (v : HeaderValue) (h : decodeMime v = none) :
    get_content_type (some v) = none := by
  unfold decodeMime at h
  cases hv : headerToStr v with
  | none => simp [get_content_type, hv]
  | some s =>
    simp only [hv] at h
    simp [get_content_type, hv, h]

/-!
Claims.
-/

/-- C1 (amended): for every response whose Content-Type header is
present but whose value is not representable as text or does not parse
as a MIME type, the formatter panics on the unwrap in
`get_content_type` (or already in `print_headers`) and produces no
output, instead of printing the raw body in plain output. -/
theorem claim_C1 (resp : Response) (v : HeaderValue)
    (hlook : headerLookup resp.headers "content-type" = some v)
    (hdec : decodeMime v = none) :
    print_resp resp = .error RunError.panic := by
  unfold print_resp
  rw [hlook, get_content_type_decode_none v hdec]
  cases print_headers resp.headers <;> rfl

/-- C1 (witness): a response whose Content-Type value is the byte 200,
which is not representable as text, makes the formatter panic. -/
theorem claim_C1_witness :
    print_resp { status := 404, statusStr := "404 Not Found", version := "HTTP/1.1",
                 headers := [("content-type", [200])], body := "x" } =
      .error RunError.panic :=
  claim_C1 _ [200] rfl rfl

/-- C1 (counterexample): for the response with Content-Type value
`oops`, which does not parse as a MIME type, the formatter does not
print the body in plain output: it fails with a panic. -/
theorem claim_C1_counterexample :
    print_resp { status := 200, statusStr := "200 OK", version := "HTTP/1.1",
                 headers := [("content-type", strBytes "oops")], body := "hello" } =
      .error RunError.panic := rfl

/-- C2: parsing the token `a=b=c` succeeds with key `a` and value `b`;
the trailing `c` after the second `=` is silently discarded. -/
theorem claim_C2 : KvPair.fromStr "a=b=c" = .ok ⟨"a", "b"⟩ := rfl

/-- C3 (amended): `parse_url` succeeds exactly when `Url::parse`
accepts the string - a scheme is required, but a host is required only
for the special schemes, so scheme-only URLs such as data URLs are
accepted - and on success it returns the original string unchanged; for
every string lacking a scheme it fails with the URL parse error
(`RelativeUrlWithoutBase`). -/
theorem claim_C3 :
    (∀ (s : String) (u : ParsedUrl), urlParse s = .ok u → parse_url s = .ok s) ∧
    (∀ (s : String) (e : UrlParseError), urlParse s = .error e → parse_url s = .error e) ∧
    (∀ s : String, parseScheme (stripControlAndSpace s.data) = none →
        parse_url s = .error UrlParseError.relativeUrlWithoutBase) := by
  refine ⟨?_, ?_, ?_⟩
  · intro s u h
    unfold parse_url
    rw [h]
  · intro s e h
    unfold parse_url
    rw [h]
  · intro s h
    unfold parse_url urlParse
    simp only [h]

/-- C3 (witness): a well-formed http URL is returned unchanged, and a
string with no scheme is rejected. -/
theorem claim_C3_witness :
    parse_url "http://example.com" = .ok "http://example.com" ∧
    parse_url "example.com" = .error UrlParseError.relativeUrlWithoutBase :=
  ⟨claim_C3.1 "http://example.com" { scheme := "http", host := some "example.com" } rfl,
   claim_C3.2.2 "example.com" rfl⟩

/-- C3 (counterexample): `data:text/plain,hello` is accepted by the URL
parser with no host at all, so `validate_url` does not require a host;
it succeeds and returns the string unchanged. -/
theorem claim_C3_counterexample :
    parse_url "data:text/plain,hello" = .ok "data:text/plain,hello" ∧
    urlParse "data:text/plain,hello" = .ok { scheme := "data", host := none } :=
  ⟨rfl, rfl⟩

/-- C4: parsing a key=value token succeeds exactly when the token
contains at least one `=` (empty key or value accepted), and a token
with no `=` fails with the error `Failed to parse {s}`. -/
theorem claim_C4 (s : String) :
    ((KvPair.fromStr s).isOk = true ↔ '=' ∈ s.data) ∧
    ('=' ∉ s.data → KvPair.fromStr s = .error ("Failed to parse " ++ s)) := by
  constructor
  · constructor
    · intro hok
      by_contra hmem
      have h1 := splitChar_eq_single '=' s.data hmem
      unfold KvPair.fromStr at hok
      rw [h1] at hok
      simp [Except.isOk, Except.toBool] at hok
    · intro hmem
      obtain ⟨a, b, t, ht⟩ := splitChar_mem '=' s.data hmem
      unfold KvPair.fromStr
      rw [ht]
      rfl
  · intro hmem
    have h1 := splitChar_eq_single '=' s.data hmem
    unfold KvPair.fromStr
    rw [h1]

/-- C4 (witness): `a=` and `=b` succeed, `abc` fails with the parse
error. -/
theorem claim_C4_witness :
    KvPair.fromStr "abc" = .error ("Failed to parse " ++ "abc") :=
  (claim_C4 "abc").2 (by decide)

/-- C5: in the outbound POST body object, every key maps to the value
of the last pair with that key in argument order, and the concrete
tokens `k=1`, `k=2` produce the object containing `k` mapped to `2`. -/
theorem claim_C5 :
    (∀ (url : String) (pairs : List KvPair) (k : String),
        alookup (jfields (postRequest url pairs).body) k =
          (lastValue pairs k).map JsonVal.str) ∧
    (parseBodyTokens ["k=1", "k=2"]).map
        (fun ps => (postRequest "http://x.com" ps).body) =
      .ok (.obj [("k", JsonVal.str "2")]) := by
  constructor
  · intro url pairs k
    show alookup ((buildBody pairs).map (fun p => (p.1, JsonVal.str p.2))) k =
      (lastValue pairs k).map JsonVal.str
    rw [alookup_map_str, buildBody, alookup_foldl_insert]
    rfl
  · rfl

/-- C6: the tokens `name=joe` and `age=30` produce exactly the JSON
object mapping `name` to the string `joe` and `age` to the string `30`
- both values stay strings - and the request carries the content type
`application/json`. -/
theorem claim_C6 (url : String) :
    (parseBodyTokens ["name=joe", "age=30"]).map (postRequest url) =
      .ok { url := url, contentTypeHeader := "application/json",
            body := .obj [("name", JsonVal.str "joe"), ("age", JsonVal.str "30")] } := rfl

/-- C7: the body formatter selects the highlighter solely from the
declared content type: `application/json` gives JSON highlighting,
`text/html` gives HTML highlighting, and any other mime value - for
example `text/plain` - or an absent header gives plain cyan output. -/
theorem claim_C7 (body : String) :
    parseMime "application/json" = some APPLICATION_JSON ∧
    parseMime "text/html" = some TEXT_HTML ∧
    parseMime "text/plain" = some ⟨"text", "plain", []⟩ ∧
    print_body (some APPLICATION_JSON) body = [Out.highlighted "json" body] ∧
    print_body (some TEXT_HTML) body = [Out.highlighted "html" body] ∧
    (∀ m : Option Mime, m ≠ some APPLICATION_JSON → m ≠ some TEXT_HTML →
        print_body m body = [Out.colored Color.cyan body]) := by
  refine ⟨rfl, rfl, rfl, rfl, ?_, ?_⟩
  · show (if TEXT_HTML = APPLICATION_JSON then [Out.highlighted "json" body]
      else if TEXT_HTML = TEXT_HTML then [Out.highlighted "html" body]
      else [Out.colored Color.cyan body]) = [Out.highlighted "html" body]
    rw [if_neg (by decide), if_pos rfl]
  · intro m h1 h2
    match m with
    | none => rfl
    | some v =>
      have hv1 : ¬(v = APPLICATION_JSON) := fun h => h1 (by rw [h])
      have hv2 : ¬(v = TEXT_HTML) := fun h => h2 (by rw [h])
      simp [print_body, hv1, hv2]

/-- C7 (witness): a `text/plain` content type and an absent header both
give plain cyan output. -/
theorem claim_C7_witness :
    print_body (some ⟨"text", "plain", []⟩) "x" = [Out.colored Color.cyan "x"] ∧
    print_body none "y" = [Out.colored Color.cyan "y"] :=
  ⟨(claim_C7 "x").2.2.2.2.2 (some ⟨"text", "plain", []⟩) (by decide) (by decide),
   (claim_C7 "y").2.2.2.2.2 none (by decide) (by decide)⟩

/-- C8: the status line of a client-error (4xx) or server-error (5xx)
response is printed in the warning color (red), and any other status is
printed as `{version} {status}` in the success color (green) followed
by a blank line. -/
theorem claim_C8 (resp : Response) :
    print_status resp =
      if 400 ≤ resp.status ∧ resp.status ≤ 599 then
        [Out.colored Color.red resp.statusStr]
      else
        [Out.colored Color.green (resp.version ++ " " ++ resp.statusStr), Out.blank] := by
  rcases Nat.lt_or_ge resp.status 400 with h4 | h4
  · have hc : is_client_error resp.status = false := by
      unfold is_client_error; simp; omega
    have hs : is_server_error resp.status = false := by
      unfold is_server_error; simp; omega
    have hif : ¬(400 ≤ resp.status ∧ resp.status ≤ 599) := by omega
    simp [print_status, hc, hs, hif]
  · rcases Nat.lt_or_ge resp.status 500 with h5 | h5
    · have hc : is_client_error resp.status = true := by
        unfold is_client_error; simp; omega
      have hif : 400 ≤ resp.status ∧ resp.status ≤ 599 := by omega
      simp [print_status, hc, hif]
    · rcases Nat.lt_or_ge resp.status 600 with h6 | h6
      · have hc : is_client_error resp.status = false := by
          unfold is_client_error; simp; omega
        have hs : is_server_error resp.status = true := by
          unfold is_server_error; simp; omega
        have hif : 400 ≤ resp.status ∧ resp.status ≤ 599 := by omega
        simp [print_status, hc, hs, hif]
      · have hc : is_client_error resp.status = false := by
          unfold is_client_error; simp; omega
        have hs : is_server_error resp.status = false := by
          unfold is_server_error; simp; omega
        have hif : ¬(400 ≤ resp.status ∧ resp.status ≤ 599) := by omega
        simp [print_status, hc, hs, hif]

/-- C9: when sending fails at the transport level, both `get` and
`post` propagate the transport error without producing any formatted
output, and the process exit status is non-zero (1). -/
theorem claim_C9 (msg : String) :
    getRun (.error msg) = .error (RunError.transport msg) ∧
    postRun (.error msg) = .error (RunError.transport msg) ∧
    exitCode (getRun (.error msg)) = 1 ∧
    exitCode (postRun (.error msg)) = 1 :=
  ⟨rfl, rfl, rfl, rfl⟩

/-- C10: a POST with zero key=value tokens still carries a body: the
empty JSON object, with the `application/json` content type set. -/
theorem claim_C10 (url : String) :
    (parseBodyTokens []).map (postRequest url) =
      .ok { url := url, contentTypeHeader := "application/json",
            body := .obj [] } := rfl
